import Mathlib

/-!
# MoodBot front end: the message-exchange controller of `script.js`

A shallow embedding of the controller in `src/script.js` and the properties
proved about it.

Modelling conventions.

* A JavaScript string is a Lean `String` (a sequence of Unicode scalar values);
  `length` counts UTF-16 code units, as in JavaScript.  Strings holding lone
  surrogates are not represented.
* The page is a record of the DOM properties and script variables the
  controller reads or writes.  Layout (`autoResizeTextarea`), the deferred
  `scrollToBottom` timer and console output leave that record unchanged and are
  omitted.
* `sendMessage` is an `async` function: `sendMessage` below is its synchronous
  part, up to the `await` on `fetch`, and `afterFetch` is what runs when the
  request settles.  The two awaits (`fetch`, `response.json()`) are one event.
* A Number is an IEEE-754 double, kept exactly: a finite magnitude is a natural
  number of units of `2^-1074`, and rounding is round-to-nearest, ties-to-even.
-/

namespace MoodBot

/-! ## Strings -/

/-- ECMAScript `WhiteSpace` and `LineTerminator` code points, the characters
`String.prototype.trim` strips. -/
def isWhiteSpace (c : Char) : Bool :=
  let n := c.toNat
  n = 0x09 || n = 0x0A || n = 0x0B || n = 0x0C || n = 0x0D || n = 0x20 ||
  n = 0xA0 || n = 0x1680 || (0x2000 ≤ n && n ≤ 0x200A) || n = 0x2028 ||
  n = 0x2029 || n = 0x202F || n = 0x205F || n = 0x3000 || n = 0xFEFF

/-- Strip leading and trailing white space from a character sequence. -/
def trimChars (cs : List Char) : List Char :=
  ((cs.dropWhile isWhiteSpace).reverse.dropWhile isWhiteSpace).reverse

/-- The method `String.prototype.trim`. -/
def jsTrim (s : String) : String := String.mk (trimChars s.data)

/-- UTF-16 code units of one code point. -/
def utf16Units (c : Char) : Nat := if c.toNat < 0x10000 then 1 else 2

/-- The property `String.prototype.length`: the number of UTF-16 code units. -/
def jsLength (s : String) : Nat := (s.data.map utf16Units).sum

/-- The line feed, U+000A: what the pattern `/\n/g` matches. -/
def lineFeed : Char := Char.ofNat 0x0A

/-- The no-break space, U+00A0. -/
def noBreakSpace : Char := Char.ofNat 0xA0

/-- HTML fragment serialisation of one character of a text node (the getter of
`innerHTML`): `&`, U+00A0, `<` and `>` are written as entities. -/
def serializeChar (c : Char) : List Char :=
  if c = '&' then "&amp;".data
  else if c = noBreakSpace then "&nbsp;".data
  else if c = '<' then "&lt;".data
  else if c = '>' then "&gt;".data
  else [c]

/-- The value of `div.innerHTML` after `div.textContent = text`. -/
def textToInnerHTML (cs : List Char) : List Char := cs.flatMap serializeChar

/-- The call `.replace(/\n/g, '<br>')`. -/
def replaceLineFeeds (cs : List Char) : List Char :=
  cs.flatMap (fun c => if c = lineFeed then "<br>".data else [c])

/-- The function `escapeHtml(text)` (script.js 303-307). -/
def escapeHtml (text : String) : String :=
  String.mk (replaceLineFeeds (textToInnerHTML text.data))

/-- The function `escapeHtml` on a value that may be `undefined`: the setter of `textContent`
takes `undefined` as `null`, which leaves the element empty. -/
def escapeHtmlOpt : Option String → String
  | none => escapeHtml ""
  | some text => escapeHtml text

/-- What `escapeHtml` writes for one character of its argument. -/
def escapeChar (c : Char) : List Char := replaceLineFeeds (serializeChar c)

/-! ## Numbers -/

/-- Units per 1.0: magnitudes are counted in units of `2^-1074`, the smallest
positive double. -/
def unitsPerOne : Nat := 2 ^ 1074

/-- A Number value. `finite negative mag` is `± mag * 2^-1074`. -/
inductive JsNumber where
  | nan
  | infinity (negative : Bool)
  | finite (negative : Bool) (mag : Nat)
deriving DecidableEq, Repr

/-- Search upward for the spacing of doubles around the magnitude `m`: the least
power of two `u` with `m < 2^53 * u`. -/
def ulpSearch (m : Nat) : Nat → Nat → Nat
  | 0, u => u
  | fuel + 1, u => if m < 2 ^ 53 * u then u else ulpSearch m fuel (2 * u)

/-- Spacing of the doubles in the binade of the magnitude `m` (1 unit for
subnormals and the first normal binade). -/
def ulpOf (m : Nat) : Nat := ulpSearch m m 1

/-- Round the magnitude `a / b` (in units) to a double, to nearest, ties to the
even significand. -/
def roundToDouble (a b : Nat) : Nat :=
  let u := ulpOf (a / b)
  let q := a / (u * b)
  let r := a % (u * b)
  if 2 * r < u * b then q * u
  else if u * b < 2 * r then (q + 1) * u
  else if q % 2 = 0 then q * u else (q + 1) * u

/-- First magnitude past the largest finite double: `2^1024`, in units. -/
def overflowThreshold : Nat := 2 ^ 2098

/-- A finite double: a multiple of the spacing of its binade, below `2^1024`. -/
def IsDouble (m : Nat) : Prop := m % ulpOf m = 0 ∧ m < overflowThreshold

instance (m : Nat) : Decidable (IsDouble m) := by
  unfold IsDouble
  exact inferInstance

/-- The Number a rounded magnitude stands for, with overflow to infinity. -/
def ofRounded (negative : Bool) (r : Nat) : JsNumber :=
  if r < overflowThreshold then .finite negative r else .infinity negative

/-- The Number value of the decimal literal `± num / den`, as `JSON.parse` reads
it (`den` a power of ten). -/
def ofDecimal (negative : Bool) (num den : Nat) : JsNumber :=
  ofRounded negative (roundToDouble (num * unitsPerOne) den)

/-- The product `x * 100`. -/
def times100 : JsNumber → JsNumber
  | .nan => .nan
  | .infinity negative => .infinity negative
  | .finite negative mag => ofRounded negative (roundToDouble (mag * 100) 1)

/-- The integer `n` of `toFixed(1)`: `n / 10` is as close to the magnitude as
possible, the larger `n` on a tie. -/
def nearestTenth (mag : Nat) : Nat := (20 * mag + unitsPerOne) / (2 * unitsPerOne)

/-- Text of a Number conversion. Magnitudes of `10^21` and more are written by
the engine in exponent form; that text is kept unexpanded. -/
inductive NumberText where
  | plain (text : String)
  | exponentForm (value : JsNumber) (suffix : String)
deriving DecidableEq, Repr

/-- Append literal text to a Number text. -/
def NumberText.append : NumberText → String → NumberText
  | .plain text, suffix => .plain (text ++ suffix)
  | .exponentForm value s, suffix => .exponentForm value (s ++ suffix)

/-- The call `x.toFixed(1)`. -/
def toFixed1 : JsNumber → NumberText
  | .nan => .plain "NaN"
  | .infinity negative => .plain (if negative then "-Infinity" else "Infinity")
  | .finite negative mag =>
    if 10 ^ 21 * unitsPerOne ≤ mag then .exponentForm (.finite negative mag) ""
    else
      let n := nearestTenth mag
      .plain ((if negative ∧ mag ≠ 0 then "-" else "") ++
        Nat.repr (n / 10) ++ "." ++ Nat.repr (n % 10))

/-- The badge text `(confidence * 100).toFixed(1)` followed by `%` (script.js
205); a missing confidence is `undefined`, whose product is `NaN`. -/
def confidenceBadge (confidence : Option JsNumber) : NumberText :=
  (toFixed1 (match confidence with
    | none => .nan
    | some c => times100 c)).append "%"

/-- Magnitude of a Number, in units (0 for `NaN` and the infinities). -/
def JsNumber.magnitude : JsNumber → Nat
  | .finite _ mag => mag
  | _ => 0

/-- The badge as the specification words it, for a confidence of magnitude `mag`
(in units): the exact product `100 * c`, rounded to one digit after the decimal
point (half up), followed by `%`. -/
def exactPercentBadge (mag : Nat) : String :=
  let n := (2000 * mag + unitsPerOne) / (2 * unitsPerOne)
  Nat.repr (n / 10) ++ "." ++ Nat.repr (n % 10) ++ "%"

/-! ## Lookup tables of `addBotMessage` -/

/-- What a property read on an object literal yields. -/
inductive PropertyValue where
  | undefined
  | string (value : String)
  | inherited (key : String)
deriving DecidableEq, Repr

/-- Property names every object literal inherits from `Object.prototype`. -/
def objectPrototypeKeys : List String :=
  ["constructor", "hasOwnProperty", "isPrototypeOf", "propertyIsEnumerable",
   "toLocaleString", "toString", "valueOf", "__proto__", "__defineGetter__",
   "__defineSetter__", "__lookupGetter__", "__lookupSetter__"]

/-- The read `table[key]` on an object literal with string values: an own
property, else a member inherited from `Object.prototype`, else `undefined`. -/
def getProperty (table : List (String × String)) (key : String) : PropertyValue :=
  match table.lookup key with
  | some value => .string value
  | none => if key ∈ objectPrototypeKeys then .inherited key else .undefined

/-- Truthiness: `undefined` and the empty string are falsy; functions and
objects are truthy. -/
def PropertyValue.truthy : PropertyValue → Bool
  | .undefined => false
  | .string value => value ≠ ""
  | .inherited _ => true

/-- The expression `value || fallback`. -/
def PropertyValue.orDefault (value : PropertyValue) (fallback : String) : PropertyValue :=
  if value.truthy then value else .string fallback

/-- The table `classMapping` (script.js 172-177). -/
def classMapping : List (String × String) :=
  [("Neutro", "neutral"), ("Ansiedad", "anxiety"),
   ("Depresion", "depression"), ("Depresión", "depression")]

/-- The table `symbolMapping` (script.js 180-185). -/
def symbolMapping : List (String × String) :=
  [("Neutro", "●"), ("Ansiedad", "●"), ("Depresion", "●"), ("Depresión", "●")]

/-- The constant `predictionClass` (script.js 187). -/
def predictionClassOf (label : String) : PropertyValue :=
  (getProperty classMapping label).orDefault "neutral"

/-- The constant `symbol` (script.js 188). -/
def symbolOf (label : String) : PropertyValue :=
  (getProperty symbolMapping label).orDefault "●"

/-- The variable `symbolColor` (script.js 191-194). -/
def symbolColorOf (predictionClass : PropertyValue) : String :=
  let symbolColor := ""
  let symbolColor :=
    if predictionClass = .string "neutral" then "color: #059669;" else symbolColor
  let symbolColor :=
    if predictionClass = .string "anxiety" then "color: #d97706;" else symbolColor
  let symbolColor :=
    if predictionClass = .string "depression" then "color: #dc2626;" else symbolColor
  symbolColor

/-! ## Page state -/

/-- The constant `API_URL` (script.js 2). -/
def API_URL : String := "https://moodbot-production.up.railway.app"

/-- The `prediction` object of a predict response; a field that is absent
reads as `undefined` (`none`). -/
structure Prediction where
  label : Option String
  confidence : Option JsNumber
deriving DecidableEq, Repr

/-- The parsed body of a predict response, an object whose fields, when
present, have the types of the service contract
(`prediction: (label: string, confidence: number), response: string`). -/
structure PredictData where
  prediction : Option Prediction
  response : Option String
deriving DecidableEq, Repr

/-- The result card of a bot bubble (script.js 198-210), one field per
interpolation of the markup. -/
structure BotCard where
  messageHtml : String
  predictionClass : PropertyValue
  symbolColor : String
  symbol : PropertyValue
  label : String
  badge : NumberText
deriving DecidableEq, Repr

/-- A child appended to `chatMessages`, with the interpolated content of its
markup. -/
inductive ChatEntry where
  | user (messageHtml : String)
  | bot (card : BotCard)
  | error (errorHtml : String)
deriving DecidableEq, Repr

/-- An element of `conversationHistory` (script.js 134-138). -/
structure HistoryEntry where
  user : String
  bot : PredictData
  timestamp : String
deriving DecidableEq, Repr

/-- A predict request handed to `fetch` (script.js 114-120); `message` is the
field of the JSON body. -/
structure PredictRequest where
  url : String
  method : String
  message : String
deriving DecidableEq, Repr

/-- The controller's variables and the DOM properties it reads or writes. -/
structure State where
  /-- The property `userInput.value`. -/
  inputValue : String
  /-- Whether `userInput` has the focus. -/
  inputFocused : Bool
  /-- The property `sendButton.disabled`. -/
  sendDisabled : Bool
  /-- Children of `chatMessages`, in document order. -/
  chatMessages : List ChatEntry
  /-- The property `loadingMessage.style.display`. -/
  loadingDisplay : String
  /-- The property `welcomeMessage.style.display`; `none` when the page has no
  such element. -/
  welcomeDisplay : Option String
  /-- The property `charCount.textContent`. -/
  charCountText : String
  /-- The property `charCount.style.color`. -/
  charCountColor : String
  /-- The variable `isProcessing` (script.js 13). -/
  isProcessing : Bool
  /-- The variable `conversationHistory` (script.js 14). -/
  conversationHistory : List HistoryEntry
  /-- Predict requests issued so far, oldest first. -/
  requests : List PredictRequest
  /-- Activations of `sendMessage` suspended at their `await`, each with its
  `text`: the predict requests in flight, oldest first. -/
  inFlight : List String
deriving DecidableEq, Repr

/-- How a predict request ends once the response body has been read. -/
inductive ResponseBody where
  /-- The promise of `response.json()` rejects: the body is not JSON. -/
  | syntaxError (message : String)
  /-- The promise of `response.json()` resolves with the parsed body. -/
  | json (data : PredictData)
deriving DecidableEq, Repr

/-- How `fetch` settles. -/
inductive FetchOutcome where
  /-- The promise rejects with a network-level error carrying `message`. -/
  | rejected (message : String)
  /-- The promise resolves with a response. -/
  | response (status : Nat) (statusText : String) (body : ResponseBody)
deriving DecidableEq, Repr

/-- What the runtime supplies when a request settles: the clock reading
`new Date().toISOString()` and the engine's wording of the `TypeError` raised by
a property read on `undefined`. -/
structure Runtime where
  now : String
  typeErrorMessage : String
deriving DecidableEq, Repr

/-! ## The controller -/

/-- Colour of the character counter for a length (script.js 249-255). -/
def charCountColorOf (count : Nat) : String :=
  if count > 900 then "#dc2626"
  else if count > 700 then "#d97706"
  else "#64748b"

/-- The function `updateCharCount()` (script.js 245-256). -/
def updateCharCount (s : State) : State :=
  let count := jsLength s.inputValue
  { s with charCountText := Nat.repr count ++ "/1000",
           charCountColor := charCountColorOf count }

/-- The function `toggleSendButton()` (script.js 259-262). -/
def toggleSendButton (s : State) : State :=
  let hasText := decide (jsLength (jsTrim s.inputValue) > 0)
  { s with sendDisabled := !hasText || s.isProcessing }

/-- The function `showLoading()` (script.js 234-237). -/
def showLoading (s : State) : State := { s with loadingDisplay := "flex" }

/-- The function `hideLoading()` (script.js 240-242). -/
def hideLoading (s : State) : State := { s with loadingDisplay := "none" }

/-- The function `addUserMessage(text)` (script.js 151-162). -/
def addUserMessage (s : State) (text : String) : State :=
  { s with chatMessages := s.chatMessages ++ [.user (escapeHtml text)] }

/-- The function `addErrorMessage(errorText)` (script.js 216-231). -/
def addErrorMessage (s : State) (errorText : String) : State :=
  { s with chatMessages := s.chatMessages ++ [.error (escapeHtml errorText)] }

/-- The text a template literal gives a label that may be `undefined`; the same
text is the property key of a table read. -/
def labelText : Option String → String
  | none => "undefined"
  | some label => label

/-- The card `addBotMessage` builds from a prediction (script.js 167-210). -/
def botCard (prediction : Prediction) (response : Option String) : BotCard :=
  let predictionLabel := labelText prediction.label
  let predictionClass := predictionClassOf predictionLabel
  { messageHtml := escapeHtmlOpt response,
    predictionClass := predictionClass,
    symbolColor := symbolColorOf predictionClass,
    symbol := symbolOf predictionLabel,
    label := predictionLabel,
    badge := confidenceBadge prediction.confidence }

/-- The function `addBotMessage(data)` (script.js 165-213). Reading `.label` of an absent
`prediction` throws a `TypeError` before anything is rendered. -/
def addBotMessage (s : State) (data : PredictData) (rt : Runtime) : Except String State :=
  match data.prediction with
  | none => .error rt.typeErrorMessage
  | some prediction =>
    .ok { s with chatMessages := s.chatMessages ++ [.bot (botCard prediction data.response)] }

/-- The synchronous part of `sendMessage()` (script.js 87-120): the guard, the
user bubble, the reset of the input, and the call of `fetch`. -/
def sendMessage (s : State) : State :=
  let text := jsTrim s.inputValue
  if text = "" ∨ s.isProcessing = true then s
  else
    let s := if s.conversationHistory.length = 0
      then { s with welcomeDisplay := s.welcomeDisplay.map (fun _ => "none") } else s
    let s := addUserMessage s text
    let s := { s with inputValue := "" }
    let s := updateCharCount s
    let s := toggleSendButton s
    let s := { s with isProcessing := true }
    let s := showLoading s
    { s with requests := s.requests ++ [⟨API_URL ++ "/predict", "POST", text⟩],
             inFlight := s.inFlight ++ [text] }

/-- The `try` block of `sendMessage` from the `await` on (script.js 114-138):
the new state, or the thrown error's message with the state at the throw. -/
def tryBlock (s : State) (text : String) (outcome : FetchOutcome) (rt : Runtime) :
    Except (String × State) State :=
  match outcome with
  | .rejected message => .error (message, s)
  | .response status statusText body =>
    if ¬ (200 ≤ status ∧ status ≤ 299) then
      .error ("Error " ++ Nat.repr status ++ ": " ++ statusText, s)
    else
      match body with
      | .syntaxError message => .error (message, s)
      | .json data =>
        let s := hideLoading s
        match addBotMessage s data rt with
        | .error message => .error (message, s)
        | .ok s =>
          .ok { s with conversationHistory :=
                  s.conversationHistory ++ [⟨text, data, rt.now⟩] }

/-- The rest of `sendMessage()` once its request settles (script.js 112-147):
`try`, `catch` and `finally`. -/
def afterFetch (s : State) (text : String) (outcome : FetchOutcome) (rt : Runtime) : State :=
  let s := match tryBlock s text outcome rt with
    | .ok s => s
    | .error (message, s) => addErrorMessage (hideLoading s) message
  { s with isProcessing := false, inputFocused := true }

/-- What can happen to the page. -/
inductive Event where
  /-- The user edits the field, leaving `value` in it; the `input` listener runs. -/
  | input (value : String)
  /-- A key goes down in the field; the `keydown` listener runs. -/
  | keydown (key : String) (shiftKey : Bool)
  /-- A call of `sendMessage()`. -/
  | send
  /-- The oldest predict request in flight settles. -/
  | settle (outcome : FetchOutcome) (rt : Runtime)
deriving DecidableEq, Repr

/-- The `input` listener (script.js 26-30), after the edit. -/
def onInput (s : State) (value : String) : State :=
  toggleSendButton (updateCharCount { s with inputValue := value })

/-- The `keydown` listener (script.js 33-40). -/
def onKeydown (s : State) (key : String) (shiftKey : Bool) : State :=
  if key = "Enter" ∧ shiftKey = false then
    if s.sendDisabled = false then sendMessage s else s
  else s

/-- One event. A `settle` with nothing in flight cannot occur and changes
nothing. -/
def step (s : State) : Event → State
  | .input value => onInput s value
  | .keydown key shiftKey => onKeydown s key shiftKey
  | .send => sendMessage s
  | .settle outcome rt =>
    match s.inFlight with
    | [] => s
    | text :: rest => afterFetch { s with inFlight := rest } text outcome rt

/-- A sequence of events, oldest first. -/
def run (s : State) (events : List Event) : State := events.foldl step s

/-- The page once the script has loaded: `isProcessing` and
`conversationHistory` as initialised (script.js 13-14), the field focused
(script.js 43) and nothing requested. The markup is not part of the source: the
elements are taken empty and without inline style, except for what the
parameters give, the `disabled` attribute of the button and the presence of the
welcome element. -/
def loaded (sendDisabled : Bool) (welcomeDisplay : Option String) : State :=
  { inputValue := "", inputFocused := true, sendDisabled := sendDisabled,
    chatMessages := [], loadingDisplay := "", welcomeDisplay := welcomeDisplay,
    charCountText := "", charCountColor := "",
    isProcessing := false, conversationHistory := [], requests := [], inFlight := [] }

/-- Whether the event is the settling of a request. -/
def Event.isSettle : Event → Bool
  | .settle _ _ => true
  | _ => false

/-- One exchange: a call of `sendMessage`, the events `mid` that occur while its
request is in flight, and the settling of the request. -/
def exchange (s : State) (mid : List Event) (outcome : FetchOutcome) (rt : Runtime) : State :=
  run s (Event.send :: mid ++ [Event.settle outcome rt])

/-! ## Strings: lemmas -/

theorem utf16Units_pos (c : Char) : 0 < utf16Units c := by
  unfold utf16Units
  split <;> decide

theorem jsLength_pos_iff (t : String) : 0 < jsLength t ↔ t ≠ "" := by
  obtain ⟨cs⟩ := t
  cases cs with
  | nil => simp [jsLength]
  | cons c cs =>
    have hc := utf16Units_pos c
    have hne : (String.mk (c :: cs)) ≠ "" := by
      intro h
      have h2 := congrArg String.data h
      simp at h2
    simp only [jsLength, List.map_cons, List.sum_cons]
    constructor
    · intro _; exact hne
    · intro _; omega

theorem replaceLineFeeds_flatMap (f : Char → List Char) (cs : List Char) :
    replaceLineFeeds (cs.flatMap f) = cs.flatMap (fun c => replaceLineFeeds (f c)) := by
  unfold replaceLineFeeds
  induction cs with
  | nil => rfl
  | cons c cs ih => simp [List.flatMap_cons, List.flatMap_append, ih]

theorem escapeHtml_data (s : String) :
    (escapeHtml s).data = s.data.flatMap escapeChar := by
  simp only [escapeHtml, textToInnerHTML, replaceLineFeeds_flatMap]
  rfl

theorem escapeChar_cases (c : Char) :
    (c = '&' ∧ escapeChar c = "&amp;".data) ∨ (c = '<' ∧ escapeChar c = "&lt;".data) ∨
    (c = '>' ∧ escapeChar c = "&gt;".data) ∨ (c = lineFeed ∧ escapeChar c = "<br>".data) ∨
    (c = noBreakSpace ∧ escapeChar c = "&nbsp;".data) ∨
    (c ≠ '&' ∧ c ≠ '<' ∧ c ≠ '>' ∧ c ≠ lineFeed ∧ c ≠ noBreakSpace ∧ escapeChar c = [c]) := by
  by_cases h1 : c = '&'
  · subst h1; left; exact ⟨rfl, by decide⟩
  by_cases h2 : c = '<'
  · subst h2; right; left; exact ⟨rfl, by decide⟩
  by_cases h3 : c = '>'
  · subst h3; right; right; left; exact ⟨rfl, by decide⟩
  by_cases h4 : c = lineFeed
  · subst h4; right; right; right; left; exact ⟨rfl, by decide⟩
  by_cases h5 : c = noBreakSpace
  · subst h5; right; right; right; right; left; exact ⟨rfl, by decide⟩
  · right; right; right; right; right
    refine ⟨h1, h2, h3, h4, h5, ?_⟩
    simp [escapeChar, serializeChar, replaceLineFeeds, h1, h2, h3, h4, h5]

theorem escapeChar_count (c : Char) :
    (escapeChar c).count lineFeed = 0 ∧
    (escapeChar c).count '<' = [c].count lineFeed ∧
    (escapeChar c).count '>' = [c].count lineFeed ∧
    [escapeChar c].count "<br>".data = [c].count lineFeed := by
  rcases escapeChar_cases c with h | h | h | h | h | h
  · rw [h.2, h.1]; decide
  · rw [h.2, h.1]; decide
  · rw [h.2, h.1]; decide
  · rw [h.2, h.1]; decide
  · rw [h.2, h.1]; decide
  · obtain ⟨h1, h2, h3, h4, h5, h6⟩ := h
    rw [h6]
    have e1 : ¬ (c == lineFeed) = true := by simpa using h4
    have e2 : ¬ (c == '<') = true := by simpa using h2
    have e3 : ¬ (c == '>') = true := by simpa using h3
    have e4 : ¬ ([c] == "<br>".data) = true := by
      intro h
      have h7 : [c] = "<br>".data := eq_of_beq h
      have h8 : [c].length = "<br>".data.length := congrArg List.length h7
      simp at h8
    refine ⟨?_, ?_, ?_, ?_⟩ <;> simp [List.count_cons, e1, e2, e3, e4]

theorem flatMap_escapeChar_count (cs : List Char) :
    (cs.flatMap escapeChar).count lineFeed = 0 ∧
    (cs.flatMap escapeChar).count '<' = cs.count lineFeed ∧
    (cs.flatMap escapeChar).count '>' = cs.count lineFeed ∧
    (cs.map escapeChar).count "<br>".data = cs.count lineFeed := by
  induction cs with
  | nil => simp
  | cons c cs ih =>
    obtain ⟨a1, a2, a3, a4⟩ := escapeChar_count c
    obtain ⟨b1, b2, b3, b4⟩ := ih
    have hc : ∀ x : Char, (c :: cs).count x = [c].count x + cs.count x := by
      intro x
      rw [← List.count_append]
      rfl
    have hp : ((c :: cs).map escapeChar).count "<br>".data
        = [escapeChar c].count "<br>".data + (cs.map escapeChar).count "<br>".data := by
      rw [← List.count_append]
      rfl
    refine ⟨?_, ?_, ?_, ?_⟩
    · rw [List.flatMap_cons, List.count_append, a1, b1]
    · rw [List.flatMap_cons, List.count_append, a2, b2, hc]
    · rw [List.flatMap_cons, List.count_append, a3, b3, hc]
    · rw [hp, a4, b4, hc]

theorem escapeChar_forall₂ (cs : List Char) :
    List.Forall₂ (fun c piece =>
        (c = '&' → piece = "&amp;".data) ∧ (c = '<' → piece = "&lt;".data) ∧
        (c = '>' → piece = "&gt;".data) ∧ (c = lineFeed → piece = "<br>".data) ∧
        (c ≠ lineFeed → ∀ x ∈ piece, x ≠ '<' ∧ x ≠ '>' ∧ x ≠ lineFeed))
      cs (cs.map escapeChar) := by
  induction cs with
  | nil => exact List.Forall₂.nil
  | cons c cs ih =>
    refine List.Forall₂.cons ?_ ih
    rcases escapeChar_cases c with h | h | h | h | h | h
    · rw [h.2, h.1]; decide
    · rw [h.2, h.1]; decide
    · rw [h.2, h.1]; decide
    · rw [h.2, h.1]; decide
    · rw [h.2, h.1]; decide
    · obtain ⟨h1, h2, h3, h4, h5, h6⟩ := h
      rw [h6]
      refine ⟨fun h => absurd h h1, fun h => absurd h h2, fun h => absurd h h3,
        fun h => absurd h h4, ?_⟩
      intro _ x hx
      have hxc : x = c := by simpa using hx
      subst hxc
      exact ⟨h2, h3, h4⟩

/-- C5: `escapeHtml` neutralises markup in every string. The output is the
concatenation of one piece per character of the input, where `&`, `<`, `>` give
`&amp;`, `&lt;`, `&gt;`, a line feed gives `<br>`, and the piece of any other
character holds no `<`, no `>` and no line feed. The output has no line feed,
and its `<` and its `>` are as many as the `<br>` pieces, which are as many as
the line feeds of the input. -/
theorem escapeHtml_neutralizes_markup (s : String) :
    ∃ pieces : List (List Char),
      (escapeHtml s).data = pieces.flatten ∧
      List.Forall₂ (fun c piece =>
          (c = '&' → piece = "&amp;".data) ∧ (c = '<' → piece = "&lt;".data) ∧
          (c = '>' → piece = "&gt;".data) ∧ (c = lineFeed → piece = "<br>".data) ∧
          (c ≠ lineFeed → ∀ x ∈ piece, x ≠ '<' ∧ x ≠ '>' ∧ x ≠ lineFeed))
        s.data pieces ∧
      pieces.count "<br>".data = s.data.count lineFeed ∧
      (escapeHtml s).data.count lineFeed = 0 ∧
      (escapeHtml s).data.count '<' = s.data.count lineFeed ∧
      (escapeHtml s).data.count '>' = s.data.count lineFeed := by
  obtain ⟨h1, h2, h3, h4⟩ := flatMap_escapeChar_count s.data
  refine ⟨s.data.map escapeChar, ?_, escapeChar_forall₂ s.data, h4, ?_, ?_, ?_⟩
  · rw [escapeHtml_data]; rfl
  · rw [escapeHtml_data]; exact h1
  · rw [escapeHtml_data]; exact h2
  · rw [escapeHtml_data]; exact h3

/-! ## Character counter -/

theorem jsLength_replicate (n : Nat) : jsLength (String.mk (List.replicate n 'a')) = n := by
  induction n with
  | zero => rfl
  | succ n ih =>
    have h : utf16Units 'a' = 1 := by decide
    simp only [jsLength, List.replicate_succ, List.map_cons, List.sum_cons, h] at ih ⊢
    omega

/-- C9: the character counter of `updateCharCount`. For an input of length `n`
the counter text is the decimal `n` followed by `/1000`, and the colour is
`#dc2626` when `n > 900`, `#d97706` when `700 < n ≤ 900`, and `#64748b` when
`n ≤ 700`; every `n` is the length of some input. In particular 700 is normal,
701 is warning, 901 is critical, and 42 characters read `42/1000`. -/
theorem updateCharCount_counter (s : State) :
    (updateCharCount s).charCountText = Nat.repr (jsLength s.inputValue) ++ "/1000" ∧
    (jsLength s.inputValue > 900 → (updateCharCount s).charCountColor = "#dc2626") ∧
    (700 < jsLength s.inputValue → jsLength s.inputValue ≤ 900 →
      (updateCharCount s).charCountColor = "#d97706") ∧
    (jsLength s.inputValue ≤ 700 → (updateCharCount s).charCountColor = "#64748b") ∧
    (∀ n : Nat, ∃ value : String, jsLength value = n) ∧
    (∀ value : String, jsLength value = 700 →
      (updateCharCount { s with inputValue := value }).charCountColor = "#64748b") ∧
    (∀ value : String, jsLength value = 701 →
      (updateCharCount { s with inputValue := value }).charCountColor = "#d97706") ∧
    (∀ value : String, jsLength value = 901 →
      (updateCharCount { s with inputValue := value }).charCountColor = "#dc2626") ∧
    (∀ value : String, jsLength value = 42 →
      (updateCharCount { s with inputValue := value }).charCountText = "42/1000") := by
  refine ⟨rfl, ?_, ?_, ?_, ?_, ?_, ?_, ?_, ?_⟩
  · intro h
    simp [updateCharCount, charCountColorOf, h]
  · intro h1 h2
    have h3 : ¬ jsLength s.inputValue > 900 := by omega
    simp [updateCharCount, charCountColorOf, h1, h3]
  · intro h
    have h1 : ¬ jsLength s.inputValue > 900 := by omega
    have h2 : ¬ jsLength s.inputValue > 700 := by omega
    simp [updateCharCount, charCountColorOf, h1, h2]
  · intro n
    exact ⟨_, jsLength_replicate n⟩
  · intro value h
    simp [updateCharCount, charCountColorOf, h]
  · intro value h
    simp [updateCharCount, charCountColorOf, h]
  · intro value h
    simp [updateCharCount, charCountColorOf, h]
  · intro value h
    simp only [updateCharCount, h]
    decide

/-! ## The guard of `sendMessage` -/

/-- C1: `sendMessage` is a no-op under its guard. In every state whose trimmed
input is empty or whose `isProcessing` is true, the call returns the state
unchanged: no predict request is issued, no chat entry is rendered, and
`isProcessing`, `conversationHistory` and the input field stay as they were;
so does any further call, such as a second submission while the first is in
flight. -/
theorem sendMessage_guard_noop (s : State)
    (h : jsTrim s.inputValue = "" ∨ s.isProcessing = true) :
    sendMessage s = s ∧
    (sendMessage s).requests = s.requests ∧
    (sendMessage s).inFlight = s.inFlight ∧
    (sendMessage s).chatMessages = s.chatMessages ∧
    (sendMessage s).isProcessing = s.isProcessing ∧
    (sendMessage s).conversationHistory = s.conversationHistory ∧
    (sendMessage s).inputValue = s.inputValue ∧
    ∀ n : Nat, run s (List.replicate n Event.send) = s := by
  have h0 : sendMessage s = s := by
    unfold sendMessage
    simp only [h, if_true]
  refine ⟨h0, by rw [h0], by rw [h0], by rw [h0], by rw [h0], by rw [h0], by rw [h0], ?_⟩
  intro n
  induction n with
  | zero => rfl
  | succ n ih =>
    rw [List.replicate_succ]
    show run (step s Event.send) (List.replicate n Event.send) = s
    have h1 : step s Event.send = s := h0
    rw [h1, ih]

theorem sendMessage_guard_noop_witness :
    (run (loaded true none) [.input "hola", .send]).isProcessing = true ∧
    sendMessage (run (loaded true none) [.input "hola", .send])
      = run (loaded true none) [.input "hola", .send] ∧
    (run (loaded true none) [.input "hola", .send, .send]).requests.length = 1 :=
  ⟨by decide,
   (sendMessage_guard_noop (run (loaded true none) [.input "hola", .send])
      (Or.inr (by decide))).1,
   by decide⟩

/-! ## Label table -/

/-- The label table on every label that names no member of `Object.prototype`:
the three categories with their colours, and the neutral entry for the rest. -/
theorem label_mapping_own (label : String) (h : label ∉ objectPrototypeKeys) :
    symbolOf label = .string "●" ∧
    (label = "Neutro" →
      predictionClassOf label = .string "neutral" ∧
      symbolColorOf (predictionClassOf label) = "color: #059669;") ∧
    (label = "Ansiedad" →
      predictionClassOf label = .string "anxiety" ∧
      symbolColorOf (predictionClassOf label) = "color: #d97706;") ∧
    (label = "Depresion" ∨ label = "Depresión" →
      predictionClassOf label = .string "depression" ∧
      symbolColorOf (predictionClassOf label) = "color: #dc2626;") ∧
    (label ≠ "Neutro" → label ≠ "Ansiedad" → label ≠ "Depresion" → label ≠ "Depresión" →
      predictionClassOf label = .string "neutral" ∧
      symbolColorOf (predictionClassOf label) = "color: #059669;") := by
  refine ⟨?_, ?_, ?_, ?_, ?_⟩
  · by_cases h1 : label = "Neutro"
    · subst h1; decide
    by_cases h2 : label = "Ansiedad"
    · subst h2; decide
    by_cases h3 : label = "Depresion"
    · subst h3; decide
    by_cases h4 : label = "Depresión"
    · subst h4; decide
    have b1 : (label == "Neutro") = false := beq_eq_false_iff_ne.mpr h1
    have b2 : (label == "Ansiedad") = false := beq_eq_false_iff_ne.mpr h2
    have b3 : (label == "Depresion") = false := beq_eq_false_iff_ne.mpr h3
    have b4 : (label == "Depresión") = false := beq_eq_false_iff_ne.mpr h4
    simp [symbolOf, getProperty, symbolMapping, List.lookup, b1, b2, b3, b4, h,
      PropertyValue.orDefault, PropertyValue.truthy]
  · intro h1; subst h1; decide
  · intro h1; subst h1; decide
  · intro h1
    rcases h1 with h1 | h1 <;> subst h1 <;> decide
  · intro h1 h2 h3 h4
    have b1 : (label == "Neutro") = false := beq_eq_false_iff_ne.mpr h1
    have b2 : (label == "Ansiedad") = false := beq_eq_false_iff_ne.mpr h2
    have b3 : (label == "Depresion") = false := beq_eq_false_iff_ne.mpr h3
    have b4 : (label == "Depresión") = false := beq_eq_false_iff_ne.mpr h4
    have e : predictionClassOf label = .string "neutral" := by
      simp [predictionClassOf, getProperty, classMapping, List.lookup, b1, b2, b3, b4, h,
        PropertyValue.orDefault, PropertyValue.truthy]
    rw [e]
    exact ⟨rfl, by decide⟩

/-- C6, at the labels `constructor` and `toString`: the table read finds the
member inherited from `Object.prototype`, which is truthy, so the fallback is
not taken; the category is not `neutral`, the glyph is not the dot, and no
colour is set. -/
theorem label_inherited_not_neutral :
    predictionClassOf "constructor" = .inherited "constructor" ∧
    symbolOf "constructor" = .inherited "constructor" ∧
    symbolColorOf (predictionClassOf "constructor") = "" ∧
    predictionClassOf "toString" = .inherited "toString" ∧
    symbolOf "toString" = .inherited "toString" ∧
    symbolColorOf (predictionClassOf "toString") = "" ∧
    predictionClassOf "constructor" ≠ .string "neutral" ∧
    predictionClassOf "" = .string "neutral" := by
  decide

/-! ## The exchange: supporting lemmas -/

theorem jsTrim_empty : jsTrim "" = "" := by decide

theorem sendMessage_accepted (s : State) (ht : jsTrim s.inputValue ≠ "")
    (hp : s.isProcessing = false) :
    (sendMessage s).isProcessing = true ∧
    (sendMessage s).chatMessages
      = s.chatMessages ++ [.user (escapeHtml (jsTrim s.inputValue))] ∧
    (sendMessage s).conversationHistory = s.conversationHistory ∧
    (sendMessage s).requests
      = s.requests ++ [⟨API_URL ++ "/predict", "POST", jsTrim s.inputValue⟩] ∧
    (sendMessage s).inFlight = s.inFlight ++ [jsTrim s.inputValue] ∧
    (sendMessage s).loadingDisplay = "flex" ∧
    (sendMessage s).inputValue = "" ∧
    (sendMessage s).sendDisabled = true := by
  have hg : ¬ (jsTrim s.inputValue = "" ∨ s.isProcessing = true) := by
    simp [ht, hp]
  unfold sendMessage
  simp only [hg, if_false]
  refine ⟨rfl, ?_, ?_, ?_, ?_, rfl, rfl, ?_⟩
  · split <;> rfl
  · split <;> rfl
  · split <;> rfl
  · split <;> rfl
  · have h0 : jsLength "" = 0 := rfl
    simp [showLoading, toggleSendButton, updateCharCount, addUserMessage, jsTrim_empty, h0]

theorem step_processing_frame (s : State) (e : Event) (hp : s.isProcessing = true)
    (he : e.isSettle = false) :
    (step s e).isProcessing = true ∧
    (step s e).chatMessages = s.chatMessages ∧
    (step s e).conversationHistory = s.conversationHistory ∧
    (step s e).requests = s.requests ∧
    (step s e).inFlight = s.inFlight ∧
    (step s e).loadingDisplay = s.loadingDisplay ∧
    (step s e).welcomeDisplay = s.welcomeDisplay := by
  have hs : sendMessage s = s := by
    unfold sendMessage
    simp only [hp, or_true, if_true]
  cases e with
  | input value =>
    simp [step, onInput, toggleSendButton, updateCharCount, hp]
  | keydown key shiftKey =>
    simp only [step, onKeydown]
    split
    · split
      · rw [hs]; simp [hp]
      · simp [hp]
    · simp [hp]
  | send =>
    simp only [step]
    rw [hs]; simp [hp]
  | settle outcome rt => simp [Event.isSettle] at he

theorem run_processing_frame (mid : List Event) (s : State) (hp : s.isProcessing = true)
    (hmid : ∀ e ∈ mid, e.isSettle = false) :
    (run s mid).isProcessing = true ∧
    (run s mid).chatMessages = s.chatMessages ∧
    (run s mid).conversationHistory = s.conversationHistory ∧
    (run s mid).requests = s.requests ∧
    (run s mid).inFlight = s.inFlight ∧
    (run s mid).loadingDisplay = s.loadingDisplay ∧
    (run s mid).welcomeDisplay = s.welcomeDisplay := by
  induction mid generalizing s with
  | nil => exact ⟨hp, rfl, rfl, rfl, rfl, rfl, rfl⟩
  | cons e mid ih =>
    obtain ⟨a1, a2, a3, a4, a5, a6, a7⟩ :=
      step_processing_frame s e hp (hmid e (List.mem_cons_self e mid))
    obtain ⟨b1, b2, b3, b4, b5, b6, b7⟩ :=
      ih (step s e) a1 (fun x hx => hmid x (List.mem_cons_of_mem e hx))
    show (run (step s e) mid).isProcessing = true ∧ _
    exact ⟨b1, b2.trans a2, b3.trans a3, b4.trans a4, b5.trans a5, b6.trans a6, b7.trans a7⟩

theorem run_append (s : State) (xs ys : List Event) :
    run s (xs ++ ys) = run (run s xs) ys := by
  simp [run, List.foldl_append]

theorem afterFetch_frame (s : State) (text : String) (outcome : FetchOutcome) (rt : Runtime) :
    (afterFetch s text outcome rt).isProcessing = false ∧
    (afterFetch s text outcome rt).inFlight = s.inFlight ∧
    (afterFetch s text outcome rt).requests = s.requests ∧
    (afterFetch s text outcome rt).loadingDisplay = "none" ∧
    (afterFetch s text outcome rt).inputValue = s.inputValue ∧
    (afterFetch s text outcome rt).sendDisabled = s.sendDisabled := by
  cases outcome with
  | rejected message =>
    simp [afterFetch, tryBlock, addErrorMessage, hideLoading]
  | response status statusText body =>
    by_cases hok : 200 ≤ status ∧ status ≤ 299
    · cases body with
      | syntaxError message =>
        simp [afterFetch, tryBlock, addErrorMessage, hideLoading, hok]
      | json data =>
        cases hd : data.prediction with
        | none => simp [afterFetch, tryBlock, addBotMessage, addErrorMessage, hideLoading, hok, hd]
        | some p => simp [afterFetch, tryBlock, addBotMessage, addErrorMessage, hideLoading, hok, hd]
    · simp [afterFetch, tryBlock, addErrorMessage, hideLoading, hok]

theorem sendMessage_preserves_exclusion (s : State)
    (h1 : s.isProcessing = true ↔ s.inFlight ≠ []) (h2 : s.inFlight.length ≤ 1) :
    ((sendMessage s).isProcessing = true ↔ (sendMessage s).inFlight ≠ []) ∧
    (sendMessage s).inFlight.length ≤ 1 := by
  by_cases hg : jsTrim s.inputValue = "" ∨ s.isProcessing = true
  · have h0 : sendMessage s = s := by
      unfold sendMessage
      simp only [hg, if_true]
    rw [h0]
    exact ⟨h1, h2⟩
  · have ht : jsTrim s.inputValue ≠ "" := fun h => hg (Or.inl h)
    have hp : s.isProcessing = false := by
      cases h : s.isProcessing with
      | false => rfl
      | true => exact absurd (Or.inr h) hg
    have hnil : s.inFlight = [] := by
      by_contra hne
      have := h1.mpr hne
      rw [hp] at this
      exact Bool.noConfusion this
    obtain ⟨a1, _, _, _, a5, _, _, _⟩ := sendMessage_accepted s ht hp
    rw [a1, a5, hnil]
    simp

theorem step_preserves_exclusion (s : State) (e : Event)
    (h1 : s.isProcessing = true ↔ s.inFlight ≠ []) (h2 : s.inFlight.length ≤ 1) :
    ((step s e).isProcessing = true ↔ (step s e).inFlight ≠ []) ∧
    (step s e).inFlight.length ≤ 1 := by
  cases e with
  | input value =>
    simpa [step, onInput, toggleSendButton, updateCharCount] using And.intro h1 h2
  | keydown key shiftKey =>
    simp only [step, onKeydown]
    split
    · split
      · exact sendMessage_preserves_exclusion s h1 h2
      · exact ⟨h1, h2⟩
    · exact ⟨h1, h2⟩
  | send => exact sendMessage_preserves_exclusion s h1 h2
  | settle outcome rt =>
    simp only [step]
    cases hq : s.inFlight with
    | nil =>
      simp only
      exact ⟨h1, h2⟩
    | cons text rest =>
      have hrest : rest = [] := by
        rw [hq] at h2
        simp at h2
        exact h2
      simp only
      obtain ⟨a1, a2, _, _, _, _⟩ :=
        afterFetch_frame { s with inFlight := rest } text outcome rt
      rw [a1, a2, hrest]
      simp

/-- C2: mutual exclusion. From any state with `isProcessing` false and no
request in flight, after any sequence of input events, key presses, calls of
`sendMessage` and settled requests (whatever their outcome), `isProcessing` is
true exactly when a predict request is in flight, and at most one is. -/
theorem mutual_exclusion (s0 : State) (events : List Event)
    (hp : s0.isProcessing = false) (hf : s0.inFlight = []) :
    ((run s0 events).isProcessing = true ↔ (run s0 events).inFlight ≠ []) ∧
    (run s0 events).inFlight.length ≤ 1 := by
  have h1 : s0.isProcessing = true ↔ s0.inFlight ≠ [] := by
    rw [hp, hf]
    simp
  have h2 : s0.inFlight.length ≤ 1 := by
    rw [hf]
    simp
  clear hp hf
  induction events generalizing s0 with
  | nil => exact ⟨h1, h2⟩
  | cons e events ih =>
    obtain ⟨a1, a2⟩ := step_preserves_exclusion s0 e h1 h2
    exact ih (step s0 e) a1 a2

theorem mutual_exclusion_witness :
    (loaded true none).isProcessing = false ∧ (loaded true none).inFlight = [] ∧
    (run (loaded true none)
        [.input "hola", .send, .input "otra", .send, .keydown "Enter" false]).inFlight.length
      ≤ 1 :=
  ⟨rfl, rfl,
   (mutual_exclusion (loaded true none)
      [.input "hola", .send, .input "otra", .send, .keydown "Enter" false] rfl rfl).2⟩

/-! ## The exchange: outcomes -/

theorem exchange_settles (s0 : State) (mid : List Event) (outcome : FetchOutcome)
    (rt : Runtime) (hp : s0.isProcessing = false) (hf : s0.inFlight = [])
    (ht : jsTrim s0.inputValue ≠ "") (hmid : ∀ e ∈ mid, e.isSettle = false) :
    ∃ s2 : State,
      exchange s0 mid outcome rt = afterFetch s2 (jsTrim s0.inputValue) outcome rt ∧
      s2.chatMessages = s0.chatMessages ++ [.user (escapeHtml (jsTrim s0.inputValue))] ∧
      s2.conversationHistory = s0.conversationHistory ∧
      s2.requests
        = s0.requests ++ [⟨API_URL ++ "/predict", "POST", jsTrim s0.inputValue⟩] ∧
      s2.inFlight = [] := by
  obtain ⟨a1, a2, a3, a4, a5, _, _, _⟩ := sendMessage_accepted s0 ht hp
  obtain ⟨_, b2, b3, b4, b5, _, _⟩ := run_processing_frame mid (sendMessage s0) a1 hmid
  have hq : (run (sendMessage s0) mid).inFlight = [jsTrim s0.inputValue] := by
    rw [b5, a5, hf]
    rfl
  refine ⟨{ run (sendMessage s0) mid with inFlight := [] }, ?_,
    b2.trans a2, b3.trans a3, b4.trans a4, rfl⟩
  have e1 : exchange s0 mid outcome rt
      = step (run (sendMessage s0) mid) (Event.settle outcome rt) := by
    unfold exchange
    rw [List.cons_append]
    show run (step s0 Event.send) (mid ++ [Event.settle outcome rt]) = _
    rw [run_append]
    rfl
  rw [e1]
  simp only [step, hq]

theorem afterFetch_thrown (s s1 : State) (text message : String) (outcome : FetchOutcome)
    (rt : Runtime) (h : tryBlock s text outcome rt = .error (message, s1)) :
    afterFetch s text outcome rt
      = { addErrorMessage (hideLoading s1) message with
          isProcessing := false, inputFocused := true } := by
  unfold afterFetch
  rw [h]

/-- C3: the failure path of `sendMessage`. For every accepted submission (not
processing, nothing in flight, trimmed text not empty) whose request fails,
either because `fetch` rejects with an error carrying `message` or because the
response status is outside 200-299 (then `message` is `Error`, the status and
the status text), whatever input events and calls occur meanwhile: the loading
indicator is hidden, the chat gains the user bubble and exactly one error entry
holding `escapeHtml message`, `conversationHistory` is as before the
submission, and `isProcessing` is false. -/
theorem failure_path (s0 : State) (mid : List Event) (outcome : FetchOutcome) (rt : Runtime)
    (message : String)
    (hp : s0.isProcessing = false) (hf : s0.inFlight = [])
    (ht : jsTrim s0.inputValue ≠ "") (hmid : ∀ e ∈ mid, e.isSettle = false)
    (hfail : outcome = .rejected message ∨
      ∃ status statusText body, ¬ (200 ≤ status ∧ status ≤ 299) ∧
        outcome = .response status statusText body ∧
        message = "Error " ++ Nat.repr status ++ ": " ++ statusText) :
    (exchange s0 mid outcome rt).loadingDisplay = "none" ∧
    (exchange s0 mid outcome rt).chatMessages
      = s0.chatMessages ++
        [.user (escapeHtml (jsTrim s0.inputValue)), .error (escapeHtml message)] ∧
    (exchange s0 mid outcome rt).conversationHistory = s0.conversationHistory ∧
    (exchange s0 mid outcome rt).conversationHistory.length
      = s0.conversationHistory.length ∧
    (exchange s0 mid outcome rt).isProcessing = false ∧
    (exchange s0 mid outcome rt).inFlight = [] := by
  obtain ⟨s2, e, c1, c2, _, c4⟩ := exchange_settles s0 mid outcome rt hp hf ht hmid
  have hthrow : tryBlock s2 (jsTrim s0.inputValue) outcome rt = .error (message, s2) := by
    rcases hfail with h | ⟨status, statusText, body, hok, h, hm⟩
    · rw [h]; rfl
    · rw [h, hm]
      simp only [tryBlock, hok, not_false_eq_true, if_true]
  rw [e, afterFetch_thrown s2 s2 _ message outcome rt hthrow]
  simp [addErrorMessage, hideLoading, c1, c2, c4]

theorem failure_path_witness :
    (exchange (onInput (loaded true (some "")) "hola") [] (.rejected "Failed to fetch")
        ⟨"2024-01-01T00:00:00.000Z", "TypeError"⟩).chatMessages
      = [.user (escapeHtml "hola"), .error (escapeHtml "Failed to fetch")] ∧
    (exchange (onInput (loaded true (some "")) "hola") [] (.rejected "Failed to fetch")
        ⟨"2024-01-01T00:00:00.000Z", "TypeError"⟩).conversationHistory.length = 0 ∧
    (exchange (onInput (loaded true (some "")) "hola") [] (.rejected "Failed to fetch")
        ⟨"2024-01-01T00:00:00.000Z", "TypeError"⟩).isProcessing = false := by
  have h := failure_path (onInput (loaded true (some "")) "hola") [] (.rejected "Failed to fetch")
    ⟨"2024-01-01T00:00:00.000Z", "TypeError"⟩ "Failed to fetch" rfl rfl (by decide)
    (fun e he => absurd he (List.not_mem_nil e)) (Or.inl rfl)
  exact ⟨h.2.1, h.2.2.2.1, h.2.2.2.2.1⟩

/-- C4: the success path of `sendMessage`. For every accepted submission with
trimmed text `t` whose request gets a response with a status in 200-299 and a
body `d` holding `prediction.label`, `prediction.confidence` and `response`,
whatever input events and calls occur meanwhile: the request issued is a POST to
the predict URL whose body has `message` equal to `t`; afterwards
`conversationHistory` is the previous history followed by the one entry with
user text `t` and bot result `d`; the chat gains the user bubble and the bot
card; and `isProcessing` is false. -/
theorem success_path (s0 : State) (mid : List Event) (status : Nat) (statusText : String)
    (label response : String) (confidence : JsNumber) (rt : Runtime)
    (hp : s0.isProcessing = false) (hf : s0.inFlight = [])
    (ht : jsTrim s0.inputValue ≠ "") (hmid : ∀ e ∈ mid, e.isSettle = false)
    (hok : 200 ≤ status ∧ status ≤ 299) :
    (exchange s0 mid
        (.response status statusText
          (.json ⟨some ⟨some label, some confidence⟩, some response⟩)) rt).requests
      = s0.requests ++ [⟨API_URL ++ "/predict", "POST", jsTrim s0.inputValue⟩] ∧
    (exchange s0 mid
        (.response status statusText
          (.json ⟨some ⟨some label, some confidence⟩, some response⟩)) rt).conversationHistory
      = s0.conversationHistory ++
        [⟨jsTrim s0.inputValue, ⟨some ⟨some label, some confidence⟩, some response⟩, rt.now⟩] ∧
    (exchange s0 mid
        (.response status statusText
          (.json ⟨some ⟨some label, some confidence⟩, some response⟩)) rt).chatMessages
      = s0.chatMessages ++
        [.user (escapeHtml (jsTrim s0.inputValue)),
         .bot (botCard ⟨some label, some confidence⟩ (some response))] ∧
    (exchange s0 mid
        (.response status statusText
          (.json ⟨some ⟨some label, some confidence⟩, some response⟩)) rt).isProcessing
      = false ∧
    (exchange s0 mid
        (.response status statusText
          (.json ⟨some ⟨some label, some confidence⟩, some response⟩)) rt).inFlight = [] := by
  obtain ⟨s2, e, c1, c2, c3, c4⟩ := exchange_settles s0 mid
    (.response status statusText (.json ⟨some ⟨some label, some confidence⟩, some response⟩))
    rt hp hf ht hmid
  rw [e]
  simp [afterFetch, tryBlock, addBotMessage, hideLoading, hok, c1, c2, c3, c4]

theorem success_path_witness :
    (exchange (onInput (loaded true (some "")) "Me siento ansioso") [.input "y"]
        (.response 200 "OK"
          (.json ⟨some ⟨some "Ansiedad", some (ofDecimal false 91 100)⟩, some "Entiendo..."⟩))
        ⟨"2024-01-01T00:00:00.000Z", "TypeError"⟩).conversationHistory.length = 1 ∧
    (exchange (onInput (loaded true (some "")) "Me siento ansioso") [.input "y"]
        (.response 200 "OK"
          (.json ⟨some ⟨some "Ansiedad", some (ofDecimal false 91 100)⟩, some "Entiendo..."⟩))
        ⟨"2024-01-01T00:00:00.000Z", "TypeError"⟩).requests
      = [⟨API_URL ++ "/predict", "POST", "Me siento ansioso"⟩] := by
  have h := success_path (onInput (loaded true (some "")) "Me siento ansioso") [.input "y"]
    200 "OK" "Ansiedad" "Entiendo..." (ofDecimal false 91 100)
    ⟨"2024-01-01T00:00:00.000Z", "TypeError"⟩ rfl rfl (by decide)
    (by decide) (by decide)
  refine ⟨?_, ?_⟩
  · rw [h.2.1]; rfl
  · rw [h.1]; decide

/-- C10: a response with status 200 whose body has `prediction` but lacks
`response` does not take the failure path: a bot card is rendered, no error
entry is, the exchange is appended to `conversationHistory`, and the final state
differs from the one a network error leaves. The same holds for a body lacking
`prediction.label` or `prediction.confidence`. -/
theorem missing_field_not_failure :
    (exchange (onInput (loaded true (some "")) "hola") []
        (.response 200 "OK" (.json ⟨some ⟨some "Neutro", some (ofDecimal false 1 2)⟩, none⟩))
        ⟨"2024-01-01T00:00:00.000Z", "TypeError"⟩).conversationHistory.length = 1 ∧
    (exchange (onInput (loaded true (some "")) "hola") []
        (.response 200 "OK" (.json ⟨some ⟨some "Neutro", some (ofDecimal false 1 2)⟩, none⟩))
        ⟨"2024-01-01T00:00:00.000Z", "TypeError"⟩).chatMessages
      = [.user "hola",
         .bot ⟨"", .string "neutral", "color: #059669;", .string "●", "Neutro",
           .plain "50.0%"⟩] ∧
    (exchange (onInput (loaded true (some "")) "hola") []
        (.response 200 "OK" (.json ⟨some ⟨some "Neutro", some (ofDecimal false 1 2)⟩, none⟩))
        ⟨"2024-01-01T00:00:00.000Z", "TypeError"⟩)
      ≠ exchange (onInput (loaded true (some "")) "hola") [] (.rejected "TypeError")
        ⟨"2024-01-01T00:00:00.000Z", "TypeError"⟩ ∧
    (exchange (onInput (loaded true (some "")) "hola") []
        (.response 200 "OK" (.json ⟨some ⟨none, none⟩, some "ok"⟩))
        ⟨"2024-01-01T00:00:00.000Z", "TypeError"⟩).conversationHistory.length = 1 ∧
    (exchange (onInput (loaded true (some "")) "hola") []
        (.response 200 "OK" (.json ⟨some ⟨none, none⟩, some "ok"⟩))
        ⟨"2024-01-01T00:00:00.000Z", "TypeError"⟩).chatMessages
      = [.user "hola",
         .bot ⟨"ok", .string "neutral", "color: #059669;", .string "●", "undefined",
           .plain "NaN%"⟩] := by
  decide!

theorem hideLoading_idem (s : State) : hideLoading (hideLoading s) = hideLoading s := rfl

/-- C10, as the code has it. For every accepted submission answered with a
status in 200-299 and a parsed body `d`: when `d` lacks `prediction`, the final
state is exactly the one left by a network error carrying the engine's
`TypeError` message (error entry, history not appended); when `d` has
`prediction`, with or without `label`, `confidence` and `response`, no error is
raised, the bot card is rendered and the exchange is appended to the history.
In that card a missing label reads `undefined`, a missing confidence gives the
badge `NaN%`, and a missing response gives an empty message. `isProcessing` is
false at the end in every case. -/
theorem malformed_response (s0 : State) (mid : List Event) (status : Nat)
    (statusText : String) (d : PredictData) (rt : Runtime)
    (hp : s0.isProcessing = false) (hf : s0.inFlight = [])
    (ht : jsTrim s0.inputValue ≠ "") (hmid : ∀ e ∈ mid, e.isSettle = false)
    (hok : 200 ≤ status ∧ status ≤ 299) :
    (d.prediction = none →
      exchange s0 mid (.response status statusText (.json d)) rt
        = exchange s0 mid (.rejected rt.typeErrorMessage) rt ∧
      (exchange s0 mid (.response status statusText (.json d)) rt).chatMessages
        = s0.chatMessages ++
          [.user (escapeHtml (jsTrim s0.inputValue)),
           .error (escapeHtml rt.typeErrorMessage)] ∧
      (exchange s0 mid (.response status statusText (.json d)) rt).conversationHistory
        = s0.conversationHistory) ∧
    (∀ p : Prediction, d.prediction = some p →
      (exchange s0 mid (.response status statusText (.json d)) rt).chatMessages
        = s0.chatMessages ++
          [.user (escapeHtml (jsTrim s0.inputValue)), .bot (botCard p d.response)] ∧
      (exchange s0 mid (.response status statusText (.json d)) rt).conversationHistory
        = s0.conversationHistory ++ [⟨jsTrim s0.inputValue, d, rt.now⟩]) ∧
    (∀ (c : Option JsNumber) (r : Option String),
      (botCard ⟨none, c⟩ r).label = "undefined" ∧
      (botCard ⟨none, c⟩ r).predictionClass = .string "neutral") ∧
    (∀ (l r : Option String), (botCard ⟨l, none⟩ r).badge = .plain "NaN%") ∧
    (∀ p : Prediction, (botCard p none).messageHtml = "") ∧
    (exchange s0 mid (.response status statusText (.json d)) rt).isProcessing = false := by
  obtain ⟨s2, e, c1, c2, c3, c4⟩ := exchange_settles s0 mid
    (.response status statusText (.json d)) rt hp hf ht hmid
  obtain ⟨s3, e3, d1, d2, d3, d4⟩ := exchange_settles s0 mid
    (.rejected rt.typeErrorMessage) rt hp hf ht hmid
  refine ⟨?_, ?_, ?_, ?_, ?_, ?_⟩
  · intro hnone
    have hthrow : tryBlock s2 (jsTrim s0.inputValue) (.response status statusText (.json d)) rt
        = .error (rt.typeErrorMessage, hideLoading s2) := by
      simp [tryBlock, addBotMessage, hok, hnone]
    have hsame : exchange s0 mid (.response status statusText (.json d)) rt
        = exchange s0 mid (.rejected rt.typeErrorMessage) rt := by
      unfold exchange
      rw [List.cons_append, List.cons_append]
      show run (step s0 Event.send) (mid ++ [_]) = run (step s0 Event.send) (mid ++ [_])
      rw [run_append, run_append]
      generalize run (step s0 Event.send) mid = sm
      show step sm (Event.settle (.response status statusText (.json d)) rt)
        = step sm (Event.settle (.rejected rt.typeErrorMessage) rt)
      simp only [step]
      cases sm.inFlight with
      | nil => rfl
      | cons text rest =>
        simp only
        have h1 : tryBlock { sm with inFlight := rest } text
            (.response status statusText (.json d)) rt
            = .error (rt.typeErrorMessage, hideLoading { sm with inFlight := rest }) := by
          simp [tryBlock, addBotMessage, hok, hnone]
        rw [afterFetch_thrown _ _ _ _ _ _ h1]
        rfl
    refine ⟨hsame, ?_, ?_⟩
    · rw [e, afterFetch_thrown s2 _ _ _ _ rt hthrow]
      simp [addErrorMessage, hideLoading, c1]
    · rw [e, afterFetch_thrown s2 _ _ _ _ rt hthrow]
      simp [addErrorMessage, hideLoading, c2]
  · intro p hsome
    rw [e]
    simp [afterFetch, tryBlock, addBotMessage, hideLoading, hok, hsome, c1, c2]
  · intro c r
    refine ⟨rfl, ?_⟩
    show predictionClassOf "undefined" = .string "neutral"
    decide
  · intro l r
    rfl
  · intro p
    rfl
  · rw [e]
    exact (afterFetch_frame s2 _ _ rt).1

theorem malformed_response_witness :
    (exchange (onInput (loaded true (some "")) "hola") []
        (.response 200 "OK" (.json ⟨none, some "ok"⟩))
        ⟨"2024-01-01T00:00:00.000Z", "TypeError"⟩).chatMessages
      = [.user (escapeHtml "hola"), .error (escapeHtml "TypeError")] ∧
    (exchange (onInput (loaded true (some "")) "hola") []
        (.response 200 "OK" (.json ⟨none, some "ok"⟩))
        ⟨"2024-01-01T00:00:00.000Z", "TypeError"⟩).isProcessing = false := by
  have h := malformed_response (onInput (loaded true (some "")) "hola") [] 200 "OK"
    ⟨none, some "ok"⟩ ⟨"2024-01-01T00:00:00.000Z", "TypeError"⟩ rfl rfl (by decide)
    (fun e he => absurd he (List.not_mem_nil e)) (by decide)
  exact ⟨(h.1 rfl).2.1, h.2.2.2.2.2⟩

/-! ## The send button -/

/-- The gate as `toggleSendButton` computes it: right after the call the button
is enabled exactly when the trimmed input is not empty and `isProcessing` is
false. The `input` listener ends with this call. -/
theorem toggleSendButton_gate (s : State) :
    ((toggleSendButton s).sendDisabled = false ↔
      jsTrim s.inputValue ≠ "" ∧ s.isProcessing = false) ∧
    ∀ value : String,
      ((onInput s value).sendDisabled = false ↔
        jsTrim (onInput s value).inputValue ≠ "" ∧ (onInput s value).isProcessing = false) := by
  have key : ∀ t : State, ((toggleSendButton t).sendDisabled = false ↔
      jsTrim t.inputValue ≠ "" ∧ t.isProcessing = false) := by
    intro t
    have h := jsLength_pos_iff (jsTrim t.inputValue)
    simp only [toggleSendButton, Bool.or_eq_false_iff, Bool.not_eq_false_eq_eq_true,
      decide_eq_true_eq, gt_iff_lt]
    rw [h]
  refine ⟨key s, ?_⟩
  intro value
  exact key (updateCharCount { s with inputValue := value })

/-- The stale button in general: whenever the user leaves non-blank text in the
field while an accepted request is in flight, the button is disabled once the
request has settled, whatever the outcome, although the trimmed input is not
empty and `isProcessing` is false. -/
theorem stale_button_general (s0 : State) (value : String) (outcome : FetchOutcome)
    (rt : Runtime) (hp : s0.isProcessing = false) (hf : s0.inFlight = [])
    (ht : jsTrim s0.inputValue ≠ "") (hv : jsTrim value ≠ "") :
    (exchange s0 [.input value] outcome rt).sendDisabled = true ∧
    jsTrim (exchange s0 [.input value] outcome rt).inputValue ≠ "" ∧
    (exchange s0 [.input value] outcome rt).isProcessing = false := by
  obtain ⟨a1, _, _, _, a5, _, _, _⟩ := sendMessage_accepted s0 ht hp
  have hq : (onInput (sendMessage s0) value).inFlight = [jsTrim s0.inputValue] := by
    simp [onInput, toggleSendButton, updateCharCount, a5, hf]
  have hd : (onInput (sendMessage s0) value).sendDisabled = true := by
    simp [onInput, toggleSendButton, updateCharCount, a1]
  have hi : (onInput (sendMessage s0) value).inputValue = value := by
    simp [onInput, toggleSendButton, updateCharCount]
  have e : exchange s0 [.input value] outcome rt
      = afterFetch { onInput (sendMessage s0) value with inFlight := [] }
          (jsTrim s0.inputValue) outcome rt := by
    show step (step (step s0 Event.send) (Event.input value)) (Event.settle outcome rt) = _
    show step (onInput (sendMessage s0) value) (Event.settle outcome rt) = _
    simp only [step, hq]
  obtain ⟨b1, _, _, _, b5, b6⟩ :=
    afterFetch_frame { onInput (sendMessage s0) value with inFlight := [] }
      (jsTrim s0.inputValue) outcome rt
  rw [e, b1, b5, b6]
  exact ⟨hd, by rw [hi]; exact hv, rfl⟩

/-- C7, at the events: type `hola`, send, type `abc` while the request is in
flight, the request settles. Afterwards the trimmed input `abc` is not empty
and `isProcessing` is false, yet the send button is still disabled, and the
Enter key does not submit: `finally` resets `isProcessing` without calling
`toggleSendButton`. -/
theorem send_button_stale_after_settle :
    (run (loaded true (some ""))
        [.input "hola", .send, .input "abc",
         .settle (.response 200 "OK" (.json ⟨some ⟨some "Neutro", some (ofDecimal false 1 2)⟩, some "ok"⟩))
           ⟨"2024-01-01T00:00:00.000Z", "TypeError"⟩]).sendDisabled = true ∧
    jsTrim (run (loaded true (some ""))
        [.input "hola", .send, .input "abc",
         .settle (.response 200 "OK" (.json ⟨some ⟨some "Neutro", some (ofDecimal false 1 2)⟩, some "ok"⟩))
           ⟨"2024-01-01T00:00:00.000Z", "TypeError"⟩]).inputValue = "abc" ∧
    (run (loaded true (some ""))
        [.input "hola", .send, .input "abc",
         .settle (.response 200 "OK" (.json ⟨some ⟨some "Neutro", some (ofDecimal false 1 2)⟩, some "ok"⟩))
           ⟨"2024-01-01T00:00:00.000Z", "TypeError"⟩]).isProcessing = false ∧
    (run (loaded true (some ""))
        [.input "hola", .send, .input "abc",
         .settle (.response 200 "OK" (.json ⟨some ⟨some "Neutro", some (ofDecimal false 1 2)⟩, some "ok"⟩))
           ⟨"2024-01-01T00:00:00.000Z", "TypeError"⟩,
         .keydown "Enter" false]).requests.length = 1 := by
  decide!

/-! ## Numbers: rounding to a double -/

theorem ulpSearch_spec (m : Nat) : ∀ (fuel u : Nat), (∃ j : Nat, u = 2 ^ j) →
    (u = 1 ∨ 2 ^ 52 * u ≤ m) → m < 2 ^ 53 * u * 2 ^ fuel →
    (∃ k : Nat, ulpSearch m fuel u = 2 ^ k) ∧
    (ulpSearch m fuel u = 1 ∨ 2 ^ 52 * ulpSearch m fuel u ≤ m) ∧
    m < 2 ^ 53 * ulpSearch m fuel u := by
  intro fuel
  induction fuel with
  | zero =>
    intro u hu hlow hhigh
    simp only [ulpSearch]
    refine ⟨hu, hlow, ?_⟩
    simpa using hhigh
  | succ fuel ih =>
    intro u hu hlow hhigh
    simp only [ulpSearch]
    by_cases hlt : m < 2 ^ 53 * u
    · rw [if_pos hlt]
      exact ⟨hu, hlow, hlt⟩
    · rw [if_neg hlt]
      obtain ⟨j, hj⟩ := hu
      apply ih (2 * u) ⟨j + 1, by rw [hj, pow_succ]; ring⟩
      · right
        have : 2 ^ 52 * (2 * u) = 2 ^ 53 * u := by ring
        omega
      · have : 2 ^ 53 * (2 * u) * 2 ^ fuel = 2 ^ 53 * u * 2 ^ (fuel + 1) := by
          rw [pow_succ]; ring
        omega

theorem ulpOf_spec (m : Nat) :
    (∃ k : Nat, ulpOf m = 2 ^ k) ∧ (ulpOf m = 1 ∨ 2 ^ 52 * ulpOf m ≤ m) ∧
    m < 2 ^ 53 * ulpOf m := by
  apply ulpSearch_spec m m 1 ⟨0, rfl⟩ (Or.inl rfl)
  have h1 : m < 2 ^ m := Nat.lt_two_pow m
  have h2 : 2 ^ m ≤ 2 ^ 53 * 1 * 2 ^ m := by
    have : 1 ≤ 2 ^ 53 * 1 := by norm_num
    exact Nat.le_mul_of_pos_left _ (by norm_num)
  omega

theorem ulpOf_pos (m : Nat) : 0 < ulpOf m := by
  obtain ⟨⟨k, hk⟩, _, _⟩ := ulpOf_spec m
  rw [hk]
  exact Nat.two_pow_pos k

theorem ulp_unique (m j k : Nat)
    (hj1 : 2 ^ j = 1 ∨ 2 ^ 52 * 2 ^ j ≤ m) (hj2 : m < 2 ^ 53 * 2 ^ j)
    (hk1 : 2 ^ k = 1 ∨ 2 ^ 52 * 2 ^ k ≤ m) (hk2 : m < 2 ^ 53 * 2 ^ k) : j = k := by
  have key : ∀ a b : Nat, a < b → (2 ^ b = 1 ∨ 2 ^ 52 * 2 ^ b ≤ m) → m < 2 ^ 53 * 2 ^ a →
      False := by
    intro a b hab hb ha
    have h1 : 2 ^ (a + 1) ≤ 2 ^ b := Nat.pow_le_pow_right (by norm_num) hab
    have h2 : 2 ^ (a + 1) = 2 * 2 ^ a := by rw [pow_succ]; ring
    have h3 : 0 < 2 ^ a := Nat.two_pow_pos a
    rcases hb with hb | hb
    · omega
    · have h4 : 2 ^ 52 * (2 * 2 ^ a) ≤ 2 ^ 52 * 2 ^ b := Nat.mul_le_mul_left _ (by omega)
      have h5 : 2 ^ 52 * (2 * 2 ^ a) = 2 ^ 53 * 2 ^ a := by ring
      omega
  rcases Nat.lt_trichotomy j k with h | h | h
  · exact (key j k h hk1 hj2).elim
  · exact h
  · exact (key k j h hj1 hk2).elim

theorem ulpOf_eq (m k : Nat) (h1 : 2 ^ k = 1 ∨ 2 ^ 52 * 2 ^ k ≤ m) (h2 : m < 2 ^ 53 * 2 ^ k) :
    ulpOf m = 2 ^ k := by
  obtain ⟨⟨j, hj⟩, a1, a2⟩ := ulpOf_spec m
  rw [hj] at a1 a2 ⊢
  rw [ulp_unique m j k a1 a2 h1 h2]


theorem roundToDouble_one (a : Nat) :
    (roundToDouble a 1 = a / ulpOf a * ulpOf a ∧ 2 * (a % ulpOf a) ≤ ulpOf a) ∨
    (roundToDouble a 1 = (a / ulpOf a + 1) * ulpOf a ∧ ulpOf a ≤ 2 * (a % ulpOf a)) := by
  unfold roundToDouble
  simp only [Nat.div_one, Nat.mul_one]
  by_cases h1 : 2 * (a % ulpOf a) < ulpOf a
  · rw [if_pos h1]
    exact Or.inl ⟨rfl, by omega⟩
  · rw [if_neg h1]
    by_cases h2 : ulpOf a < 2 * (a % ulpOf a)
    · rw [if_pos h2]
      exact Or.inr ⟨rfl, by omega⟩
    · rw [if_neg h2]
      by_cases h3 : a / ulpOf a % 2 = 0
      · rw [if_pos h3]
        exact Or.inl ⟨rfl, by omega⟩
      · rw [if_neg h3]
        exact Or.inr ⟨rfl, by omega⟩

/-- What rounding to nearest gives, in terms of the two neighbours `q * u` and
`(q + 1) * u` of `a` on the grid of spacing `u = ulpOf a`. -/
theorem roundToDouble_neighbours (a : Nat) :
    ∃ k q r x : Nat, ulpOf a = 2 ^ k ∧ roundToDouble a 1 = x ∧
      a = q * 2 ^ k + r ∧ r < 2 ^ k ∧
      (2 ^ k = 1 ∨ 2 ^ 52 * 2 ^ k ≤ a) ∧ a < 2 ^ 53 * 2 ^ k ∧
      ((x = q * 2 ^ k ∧ 2 * r ≤ 2 ^ k) ∨ (x = (q + 1) * 2 ^ k ∧ 2 ^ k ≤ 2 * r)) := by
  obtain ⟨⟨k, hk⟩, h1, h2⟩ := ulpOf_spec a
  have hpos : 0 < ulpOf a := ulpOf_pos a
  have hdm : a = a / ulpOf a * ulpOf a + a % ulpOf a := by
    have := Nat.div_add_mod a (ulpOf a)
    rw [Nat.mul_comm] at this
    exact this.symm
  have hr : a % ulpOf a < ulpOf a := Nat.mod_lt _ hpos
  have hx := roundToDouble_one a
  rw [hk] at h1 h2 hdm hr hx
  exact ⟨k, a / 2 ^ k, a % 2 ^ k, roundToDouble a 1, hk, rfl, hdm, hr, h1, h2, hx⟩

theorem grid_gap (a k q r y : Nat) (ha : a = q * 2 ^ k + r) (hr : r < 2 ^ k)
    (h1 : 2 ^ k = 1 ∨ 2 ^ 52 * 2 ^ k ≤ a) (h2 : a < 2 ^ 53 * 2 ^ k)
    (hy : y % ulpOf y = 0) : y ≤ q * 2 ^ k ∨ (q + 1) * 2 ^ k ≤ y := by
  by_contra hcon
  have hc1 : q * 2 ^ k < y := by omega
  have hc2 : y < (q + 1) * 2 ^ k := by omega
  have hpos : 0 < 2 ^ k := Nat.two_pow_pos k
  have hq2 : q < 2 ^ 53 := by
    by_contra hge
    have : 2 ^ 53 * 2 ^ k ≤ q * 2 ^ k := Nat.mul_le_mul_right _ (by omega)
    omega
  have hq2b : (q + 1) * 2 ^ k ≤ 2 ^ 53 * 2 ^ k := Nat.mul_le_mul_right _ (by omega)
  have hu : ulpOf y = 2 ^ k := by
    apply ulpOf_eq
    · rcases h1 with h1 | h1
      · exact Or.inl h1
      · right
        have hq1 : 2 ^ 52 ≤ q := by
          by_contra hlt
          have : (q + 1) * 2 ^ k ≤ 2 ^ 52 * 2 ^ k := Nat.mul_le_mul_right _ (by omega)
          have e : (q + 1) * 2 ^ k = q * 2 ^ k + 2 ^ k := by ring
          omega
        have : 2 ^ 52 * 2 ^ k ≤ q * 2 ^ k := Nat.mul_le_mul_right _ hq1
        omega
    · omega
  rw [hu] at hy
  obtain ⟨t, ht⟩ := Nat.dvd_of_mod_eq_zero hy
  rw [ht, Nat.mul_comm (2 ^ k) t] at hc1 hc2
  have g1 : q < t := Nat.lt_of_mul_lt_mul_right hc1
  have g2 : t < q + 1 := Nat.lt_of_mul_lt_mul_right hc2
  omega


theorem roundToDouble_nearest (a : Nat) :
    roundToDouble a 1 % ulpOf (roundToDouble a 1) = 0 ∧
    (∀ y : Nat, y % ulpOf y = 0 → Nat.dist (roundToDouble a 1) a ≤ Nat.dist y a) ∧
    2 ^ 53 * Nat.dist (roundToDouble a 1) a ≤ a ∧
    (a % ulpOf a = 0 → roundToDouble a 1 = a) ∧
    (∀ t : Nat, t % ulpOf t = 0 → a ≤ t → roundToDouble a 1 ≤ t) := by
  obtain ⟨k, q, r, x, hk, hx, ha, hr, h1, h2, hcase⟩ := roundToDouble_neighbours a
  rw [hx]
  have hpos : 0 < 2 ^ k := Nat.two_pow_pos k
  have e : (q + 1) * 2 ^ k = q * 2 ^ k + 2 ^ k := by ring
  have hq2 : q < 2 ^ 53 := by
    by_contra hge
    have : 2 ^ 53 * 2 ^ k ≤ q * 2 ^ k := Nat.mul_le_mul_right _ (by omega)
    omega
  have hq1 : 2 ^ k = 1 ∨ 2 ^ 52 ≤ q := by
    rcases h1 with h1 | h1
    · exact Or.inl h1
    · right
      by_contra hlt
      have : (q + 1) * 2 ^ k ≤ 2 ^ 52 * 2 ^ k := Nat.mul_le_mul_right _ (by omega)
      omega
  refine ⟨?_, ?_, ?_, ?_, ?_⟩
  · -- the result is on the grid of its own binade
    rcases hcase with ⟨hx1, _⟩ | ⟨hx1, hx2⟩
    · have hu : ulpOf x = 2 ^ k := by
        apply ulpOf_eq
        · rcases hq1 with h | h
          · exact Or.inl h
          · right
            rw [hx1]
            exact Nat.mul_le_mul_right _ h
        · rw [hx1]
          exact Nat.mul_lt_mul_of_pos_right hq2 hpos
      rw [hu, hx1]
      exact Nat.mul_mod_left _ _
    · by_cases htop : q + 1 = 2 ^ 53
      · have hu : ulpOf x = 2 ^ (k + 1) := by
          apply ulpOf_eq
          · right
            rw [hx1, htop, pow_succ]
            have : 2 ^ 52 * (2 ^ k * 2) = 2 ^ 53 * 2 ^ k := by ring
            omega
          · rw [hx1, htop, pow_succ]
            have : 2 ^ 53 * (2 ^ k * 2) = 2 * (2 ^ 53 * 2 ^ k) := by ring
            have : 0 < 2 ^ 53 * 2 ^ k := Nat.mul_pos (by norm_num) hpos
            omega
        have hx3 : x = 2 ^ 52 * 2 ^ (k + 1) := by
          rw [hx1, htop]
          ring
        rw [hu, hx3]
        exact Nat.mul_mod_left _ _
      · have hu : ulpOf x = 2 ^ k := by
          apply ulpOf_eq
          · rcases hq1 with h | h
            · exact Or.inl h
            · right
              rw [hx1]
              exact Nat.mul_le_mul_right _ (by omega)
          · rw [hx1]
            exact Nat.mul_lt_mul_of_pos_right (by omega) hpos
        rw [hu, hx1]
        exact Nat.mul_mod_left _ _
  · intro y hy
    have hgap := grid_gap a k q r y ha hr h1 h2 hy
    unfold Nat.dist
    rcases hcase with ⟨hx1, hx2⟩ | ⟨hx1, hx2⟩ <;> rcases hgap with g | g <;> omega
  · unfold Nat.dist
    rcases h1 with h1 | h1
    · have hr0 : r = 0 := by omega
      rcases hcase with ⟨hx1, hx2⟩ | ⟨hx1, hx2⟩
      · have : x - a + (a - x) = 0 := by omega
        rw [this]
        omega
      · omega
    · have hd : 2 * (x - a + (a - x)) ≤ 2 ^ k := by
        rcases hcase with ⟨hx1, hx2⟩ | ⟨hx1, hx2⟩ <;> omega
      have h3 : 2 ^ 52 * (2 * (x - a + (a - x))) ≤ 2 ^ 52 * 2 ^ k := Nat.mul_le_mul_left _ hd
      have h4 : 2 ^ 53 * (x - a + (a - x)) = 2 ^ 52 * (2 * (x - a + (a - x))) := by ring
      omega
  · intro hmod
    rw [hk] at hmod
    have hr0 : r = 0 := by
      have h5 : a % 2 ^ k = r := by
        rw [ha, Nat.mul_comm, Nat.mul_add_mod]
        exact Nat.mod_eq_of_lt hr
      omega
    rcases hcase with ⟨hx1, hx2⟩ | ⟨hx1, hx2⟩ <;> omega
  · intro t ht hat
    have hgap := grid_gap a k q r t ha hr h1 h2 ht
    rcases hcase with ⟨hx1, hx2⟩ | ⟨hx1, hx2⟩ <;> rcases hgap with g | g <;> omega

/-! ## The confidence badge -/

theorem hundred_is_double :
    (100 * unitsPerOne) % ulpOf (100 * unitsPerOne) = 0 ∧
    100 * unitsPerOne < overflowThreshold ∧
    100 * unitsPerOne < 10 ^ 21 * unitsPerOne ∧ 0 < unitsPerOne := by
  decide!

theorem nearestTenth_spec (x : Nat) :
    2 * nearestTenth x * unitsPerOne ≤ 20 * x + unitsPerOne ∧
    20 * x < 2 * nearestTenth x * unitsPerOne + unitsPerOne ∧
    ∀ k : Nat, Nat.dist (nearestTenth x * unitsPerOne) (10 * x)
      ≤ Nat.dist (k * unitsPerOne) (10 * x) := by
  have hS : 0 < unitsPerOne := hundred_is_double.2.2.2
  have h1 : 2 * unitsPerOne * nearestTenth x ≤ 20 * x + unitsPerOne :=
    Nat.mul_div_le _ _
  have h2 : 20 * x + unitsPerOne < 2 * unitsPerOne * (nearestTenth x + 1) :=
    Nat.lt_mul_div_succ _ (by omega)
  have e1 : 2 * unitsPerOne * nearestTenth x = 2 * (nearestTenth x * unitsPerOne) := by ring
  have e2 : 2 * unitsPerOne * (nearestTenth x + 1)
      = 2 * (nearestTenth x * unitsPerOne) + 2 * unitsPerOne := by ring
  have e3 : 2 * nearestTenth x * unitsPerOne = 2 * (nearestTenth x * unitsPerOne) := by ring
  refine ⟨by omega, by omega, ?_⟩
  intro k
  unfold Nat.dist
  rcases Nat.lt_trichotomy k (nearestTenth x) with h | h | h
  · have h3 : (k + 1) * unitsPerOne ≤ nearestTenth x * unitsPerOne :=
      Nat.mul_le_mul_right _ h
    have e4 : (k + 1) * unitsPerOne = k * unitsPerOne + unitsPerOne := by ring
    omega
  · rw [h]
  · have h3 : (nearestTenth x + 1) * unitsPerOne ≤ k * unitsPerOne :=
      Nat.mul_le_mul_right _ h
    have e4 : (nearestTenth x + 1) * unitsPerOne
        = nearestTenth x * unitsPerOne + unitsPerOne := by ring
    omega

/-- C8, as the code has it. For every confidence `c` in `[0,1]`, of magnitude
`m` units: the product `c * 100` is the finite double `x` nearest to the exact
`100 * c` (no double is nearer, `x` is `100 * c` itself when that is a double,
and the relative error is at most `2^-53`); the badge is the decimal text of
`n / 10` with exactly one digit after the point, followed by `%`, where `n / 10`
is the tenth nearest to `x`, the upper one on a tie, and `n ≤ 1000`. -/
theorem confidence_badge (m : Nat) (h1 : m ≤ unitsPerOne) :
    ∃ x n : Nat,
      times100 (.finite false m) = .finite false x ∧ IsDouble x ∧
      (∀ y : Nat, IsDouble y → Nat.dist x (100 * m) ≤ Nat.dist y (100 * m)) ∧
      2 ^ 53 * Nat.dist x (100 * m) ≤ 100 * m ∧
      (IsDouble (100 * m) → x = 100 * m) ∧
      confidenceBadge (some (.finite false m))
        = .plain (Nat.repr (n / 10) ++ "." ++ Nat.repr (n % 10) ++ "%") ∧
      n ≤ 1000 ∧
      (∀ k : Nat, Nat.dist (n * unitsPerOne) (10 * x) ≤ Nat.dist (k * unitsPerOne) (10 * x)) ∧
      20 * x < 2 * n * unitsPerOne + unitsPerOne := by
  obtain ⟨g1, g2, g3, g4, g5⟩ := roundToDouble_nearest (m * 100)
  obtain ⟨c1, c2, c3, c4⟩ := hundred_is_double
  obtain ⟨t1, t2, t3⟩ := nearestTenth_spec (roundToDouble (m * 100) 1)
  have hcomm : m * 100 = 100 * m := Nat.mul_comm _ _
  have hxle : roundToDouble (m * 100) 1 ≤ 100 * unitsPerOne := g5 _ c1 (by omega)
  have hfin : roundToDouble (m * 100) 1 < overflowThreshold := by omega
  have hsmall : ¬ 10 ^ 21 * unitsPerOne ≤ roundToDouble (m * 100) 1 := by omega
  refine ⟨roundToDouble (m * 100) 1, nearestTenth (roundToDouble (m * 100) 1),
    ?_, ⟨g1, hfin⟩, ?_, ?_, ?_, ?_, ?_, t3, t2⟩
  · show ofRounded false (roundToDouble (m * 100) 1) = _
    unfold ofRounded
    rw [if_pos hfin]
  · intro y hy
    rw [← hcomm]
    exact g2 y hy.1
  · rw [← hcomm]
    exact g3
  · intro hd
    rw [← hcomm] at hd ⊢
    exact g4 hd.1
  · simp only [confidenceBadge, times100, ofRounded, hfin, if_true, toFixed1, hsmall, if_false,
      NumberText.append]
    rw [if_neg (fun h => Bool.noConfusion h.1), String.empty_append]
  · have e1 : 2 * nearestTenth (roundToDouble (m * 100) 1) * unitsPerOne
        = unitsPerOne * (2 * nearestTenth (roundToDouble (m * 100) 1)) := by ring
    by_contra hgt
    have h3 : unitsPerOne * (2 * 1001)
        ≤ unitsPerOne * (2 * nearestTenth (roundToDouble (m * 100) 1)) :=
      Nat.mul_le_mul_left _ (by omega)
    omega

theorem confidence_badge_witness :
    (ofDecimal false 823 1000).magnitude ≤ unitsPerOne ∧
    (∃ n : Nat, n ≤ 1000 ∧
      confidenceBadge (some (.finite false (ofDecimal false 823 1000).magnitude))
        = .plain (Nat.repr (n / 10) ++ "." ++ Nat.repr (n % 10) ++ "%")) ∧
    confidenceBadge (some (ofDecimal false 823 1000)) = .plain "82.3%" ∧
    confidenceBadge (some (ofDecimal false 1 1)) = .plain "100.0%" ∧
    confidenceBadge (some (ofDecimal false 91 100)) = .plain "91.0%" := by
  refine ⟨by decide!, ?_, by decide!, by decide!, by decide!⟩
  obtain ⟨x, n, _, _, _, _, _, hb, hn, _, _⟩ :=
    confidence_badge (ofDecimal false 823 1000).magnitude (by decide!)
  exact ⟨n, hn, hb⟩

/-- C8, at the confidence 0.0015 (the double nearest to it, which lies in
`[0,1]`): the exact product `100 * c` is above 0.15 and below 0.25, so rounded to
one digit after the point it is 0.2 and the badge the specification describes
reads `0.2%`; the double product `c * 100` is just below 0.15 and the badge
`addBotMessage` renders reads `0.1%`. -/
theorem badge_not_exact_rounding :
    ofDecimal false 15 10000 = .finite false (ofDecimal false 15 10000).magnitude ∧
    IsDouble (ofDecimal false 15 10000).magnitude ∧
    (ofDecimal false 15 10000).magnitude ≤ unitsPerOne ∧
    3 * unitsPerOne < 2000 * (ofDecimal false 15 10000).magnitude ∧
    2000 * (ofDecimal false 15 10000).magnitude < 5 * unitsPerOne ∧
    exactPercentBadge (ofDecimal false 15 10000).magnitude = "0.2%" ∧
    confidenceBadge (some (ofDecimal false 15 10000)) = .plain "0.1%" ∧
    confidenceBadge (some (ofDecimal false 15 10000))
      ≠ .plain (exactPercentBadge (ofDecimal false 15 10000).magnitude) := by
  decide!

end MoodBot
